import Mathlib

/-!
Verification development for the frame-note video-annotation tool.

The definitions below are shallow embeddings of the TypeScript sources:

* the zoomed `Timeline` component (zoom-window geometry, pointer-to-time
  conversion, and the drag state machine with its `create` /
  `extend-start` / `extend-end` modes and global mouse-move / mouse-up
  handlers);
* the content-hashing utilities `generateFileHash` / `generateFastFileHash`;
* the drawing-visibility resolver of the `App` component
  (`visibleAnnotationIdsString` and `activeDrawing` memos);
* the client API wrappers (`services/api.ts`) together with the `App`
  handlers that turn API failures into user-visible alerts;
* the local-storage annotation store (`services/storage.ts`).

JavaScript numbers are modelled as rationals (`ℚ`), byte buffers as
`List ℕ`, and JavaScript strings that undergo `split` / `join` /
`sort` as `List Char`.  The SHA-256 function itself lives in the external
`js-sha256` library, so the hashing code is parameterised by the digest
function `h` it calls exactly once per invocation.
-/

namespace FrameNote

/-! ## Timeline zoom geometry (Timeline component) -/

/-- Zoom levels: 1x, 2x, 4x, 8x, 16x (`ZOOM_LEVELS` in the source). -/
def ZOOM_LEVELS : List ℚ := [1, 2, 4, 8, 16]

/-- Source: `const visibleDuration = duration / zoomLevel`. -/
def visibleDuration (duration zoomLevel : ℚ) : ℚ := duration / zoomLevel

/-- Source: `const viewStart = Math.max(0, zoomCenter - visibleDuration / 2)`. -/
def viewStart (duration zoomLevel zoomCenter : ℚ) : ℚ :=
  max 0 (zoomCenter - visibleDuration duration zoomLevel / 2)

/-- Source: `const viewEnd = Math.min(duration, viewStart + visibleDuration)`. -/
def viewEnd (duration zoomLevel zoomCenter : ℚ) : ℚ :=
  min duration (viewStart duration zoomLevel zoomCenter + visibleDuration duration zoomLevel)

/-- Source: `const actualViewStart = viewEnd === duration ? Math.max(0, duration - visibleDuration) : viewStart`. -/
def actualViewStart (duration zoomLevel zoomCenter : ℚ) : ℚ :=
  if viewEnd duration zoomLevel zoomCenter = duration then
    max 0 (duration - visibleDuration duration zoomLevel)
  else viewStart duration zoomLevel zoomCenter

/-- Source: `const actualViewEnd = actualViewStart + visibleDuration`. -/
def actualViewEnd (duration zoomLevel zoomCenter : ℚ) : ℚ :=
  actualViewStart duration zoomLevel zoomCenter + visibleDuration duration zoomLevel

/-- Source: `getTimeFromEvent`: clamp the pointer x to the track, convert the
fraction of the track width into a time offset inside the zoom window and
clamp the result to `[0, duration]`.  `clientX` stands for
`e.clientX - rect.left` and `width` for `rect.width`. -/
def getTimeFromEvent (duration zoomLevel zoomCenter width clientX : ℚ) : ℚ :=
  if duration = 0 then 0
  else
    max 0 (min duration
      (actualViewStart duration zoomLevel zoomCenter +
        (max 0 (min clientX width) / width) * visibleDuration duration zoomLevel))

/-! ## Timeline drag state machine (Timeline component) -/

/-- A selection range `{ start, end }`. -/
structure SelRange where
  start : ℚ
  «end» : ℚ
deriving DecidableEq, Repr

/-- Source: `type DragMode = 'none' | 'create' | 'extend-start' | 'extend-end'`. -/
inductive DragMode where
  | none
  | create
  | extendStart
  | extendEnd
deriving DecidableEq, Repr

/-- The component state touched by the drag handlers:
`dragMode`, `dragStart` and `tempRange`. -/
structure TimelineState where
  dragMode : DragMode
  dragStart : Option ℚ
  tempRange : Option SelRange
deriving DecidableEq, Repr

/-- The idle state (`dragMode: 'none'`, no drag anchor, no temp range). -/
def idleState : TimelineState := ⟨DragMode.none, Option.none, Option.none⟩

/-- Source: `handleMouseDown`: a pointer-down on the track itself enters `create`
mode with the pointer time as drag anchor and clears the temp range. -/
def handleMouseDown (time : ℚ) : TimelineState :=
  ⟨DragMode.create, some time, Option.none⟩

/-- Source: `handleStartHandleMouseDown`: a pointer-down on the left handle of an
existing selection enters `extend-start` and copies the selection into the
temp range; without a selection it does nothing. -/
def handleStartHandleMouseDown (selectionRange : Option SelRange) : TimelineState :=
  match selectionRange with
  | some r => ⟨DragMode.extendStart, Option.none, some r⟩
  | Option.none => idleState

/-- Source: `handleEndHandleMouseDown`: symmetric, for the right handle. -/
def handleEndHandleMouseDown (selectionRange : Option SelRange) : TimelineState :=
  match selectionRange with
  | some r => ⟨DragMode.extendEnd, Option.none, some r⟩
  | Option.none => idleState

/-- Source: `handleGlobalMouseMove`: in `extend-start` the new start is
`Math.max(0, Math.min(time, tempRange.end - 0.05))` with the end fixed; in
`extend-end` the new end is `Math.min(duration, Math.max(time, tempRange.start + 0.05))`
with the start fixed; other modes only update the hover time. -/
def handleGlobalMouseMove (duration time : ℚ) (s : TimelineState) : TimelineState :=
  match s.dragMode, s.tempRange with
  | DragMode.extendStart, some r =>
      ⟨s.dragMode, s.dragStart, some ⟨max 0 (min time (r.«end» - 1/20)), r.«end»⟩⟩
  | DragMode.extendEnd, some r =>
      ⟨s.dragMode, s.dragStart, some ⟨r.start, min duration (max time (r.start + 1/20))⟩⟩
  | _, _ => s

/-- The calls a mouse-up makes back into the app: `onSeek` and
`onRangeSelect` (the latter is only ever invoked with a range here). -/
structure MouseUpEffects where
  seekTo : Option ℚ
  rangeSelect : Option SelRange
deriving DecidableEq, Repr

/-- Source: `handleGlobalMouseUp`: from `create`, a movement below the 0.1s
threshold is a plain seek, otherwise `[min(anchor, cursor), max(anchor, cursor)]`
is committed and the playhead seeks to its start; from the extend modes the
temp range is committed and the playhead seeks to its start; the state
always returns to idle. -/
def handleGlobalMouseUp (time : ℚ) (s : TimelineState) : TimelineState × MouseUpEffects :=
  let effects : MouseUpEffects :=
    match s.dragMode, s.dragStart, s.tempRange with
    | DragMode.create, some dragStart, _ =>
        if |time - dragStart| < 1/10 then
          ⟨some time, Option.none⟩
        else
          ⟨some (min dragStart time), some ⟨min dragStart time, max dragStart time⟩⟩
    | DragMode.extendStart, _, some r => ⟨some r.start, some r⟩
    | DragMode.extendEnd, _, some r => ⟨some r.start, some r⟩
    | _, _, _ => ⟨Option.none, Option.none⟩
  (idleState, effects)

/-- Replay a list of global mouse-move events. -/
def moveSteps (duration : ℚ) (times : List ℚ) (s : TimelineState) : TimelineState :=
  times.foldl (fun s t => handleGlobalMouseMove duration t s) s

/-- The app's `handleRangeSelect` as far as the selection state is
concerned: if `onRangeSelect` was invoked the selection becomes its
argument, otherwise it is untouched. -/
def applyRangeSelect (selectionRange : Option SelRange) (effects : MouseUpEffects) :
    Option SelRange :=
  match effects.rangeSelect with
  | some r => some r
  | Option.none => selectionRange

/-- A raw pointer event together with the zoom state at the moment it is
processed; `eventTime` is the time `getTimeFromEvent` derives from it. -/
structure PointerEvent where
  clientX : ℚ
  width : ℚ
  zoomLevel : ℚ
  zoomCenter : ℚ

/-- The time a pointer event is converted to. -/
def eventTime (duration : ℚ) (e : PointerEvent) : ℚ :=
  getTimeFromEvent duration e.zoomLevel e.zoomCenter e.width e.clientX

/-! ## Content hashing (utils/hash.ts) -/

/-- Source: `const CHUNK_SIZE = 1024 * 1024` (1 MiB). -/
def CHUNK_SIZE : ℕ := 1024 * 1024

/-- Source: `generateFileHash`: hash the entire byte stream.  `h` is the SHA-256
lowercase-hex digest function of the external `js-sha256` library. -/
def generateFileHash (h : List ℕ → String) (bytes : List ℕ) : String := h bytes

/-- Resolution of a (possibly negative) `Blob.slice` offset against a byte
length: negative offsets count from the end, and everything is clamped to
`[0, size]`. -/
def relPos (size pos : ℤ) : ℤ :=
  if pos < 0 then max (size + pos) 0 else min pos size

/-- Source: `file.slice(start, stop)` on a byte list, with the W3C `Blob.slice`
offset semantics. -/
def blobSlice (bytes : List ℕ) (start stop : ℤ) : List ℕ :=
  (bytes.drop (relPos bytes.length start).toNat).take
    (relPos bytes.length stop - relPos bytes.length start).toNat

/-- Source: `new TextEncoder().encode(size.toString())`: the ASCII bytes of the
decimal representation of the byte length. -/
def sizeBuffer (bytes : List ℕ) : List ℕ :=
  (toString bytes.length).data.map Char.toNat

/-- The single message assembled by `generateFastFileHash` for large
files: the decimal size string, then `file.slice(0, CHUNK_SIZE)`, then
`file.slice(midStart, midStart + CHUNK_SIZE)` with
`midStart = Math.floor(size / 2) - CHUNK_SIZE / 2`, then
`file.slice(-CHUNK_SIZE)`. -/
def fastSampleMessage (bytes : List ℕ) : List ℕ :=
  sizeBuffer bytes ++
    blobSlice bytes 0 CHUNK_SIZE ++
    blobSlice bytes ((bytes.length / 2 : ℕ) - (CHUNK_SIZE / 2 : ℕ))
      (((bytes.length / 2 : ℕ) - (CHUNK_SIZE / 2 : ℕ)) + CHUNK_SIZE) ++
    blobSlice bytes (-(CHUNK_SIZE : ℤ)) bytes.length

/-- Source: `generateFastFileHash`: full hash for files of at most
`CHUNK_SIZE * 3` bytes, sampled composite hash beyond that. -/
def generateFastFileHash (h : List ℕ → String) (bytes : List ℕ) : String :=
  if bytes.length ≤ CHUNK_SIZE * 3 then generateFileHash h bytes
  else h (fastSampleMessage bytes)

/-- Modelled from the spec: the sampled message as the specification
describes it — the concatenation of the decimal string of the total byte
length, the first 1 MiB of bytes, the 1 MiB of bytes starting at
`floor(size / 2) - 512 KiB`, and the last 1 MiB of bytes. -/
def sampledMessageSpec (bytes : List ℕ) : List ℕ :=
  sizeBuffer bytes ++
    bytes.take (1024 * 1024) ++
    (bytes.drop (bytes.length / 2 - 512 * 1024)).take (1024 * 1024) ++
    bytes.drop (bytes.length - 1024 * 1024)

/-! ## Annotations (types.ts) -/

/-- Source: `DrawingPath`: a serialized Fabric document.  The drawn objects are
opaque to the core, so their type is a parameter. -/
structure DrawingPath (α : Type) where
  version : String
  objects : List α
deriving DecidableEq, Repr

/-- Source: `type: 'comment' | 'drawing'`. -/
inductive AnnotationType where
  | comment
  | drawing
deriving DecidableEq, Repr

/-- Source: `User` (types.ts). -/
structure User where
  id : String
  name : String
deriving DecidableEq, Repr

/-- Source: `Annotation` (types.ts).  Ids are modelled as character lists because
the resolver joins, splits and sorts them as strings. -/
structure Annotation (α : Type) where
  id : List Char
  videoId : String
  startTime : ℚ
  endTime : ℚ
  author : User
  text : String
  createdAt : ℚ
  type : AnnotationType
  drawingData : Option (DrawingPath α)
deriving DecidableEq, Repr

/-! ## Drawing-visibility resolver (App component) -/

/-- Source: `const TIME_EPSILON = 0.1` (100 ms tolerance). -/
def TIME_EPSILON : ℚ := 1/10

/-- Source: `isTimeInRange(time, start, end)`:
`time >= start - TIME_EPSILON && time <= end + TIME_EPSILON`. -/
def isTimeInRange (time startT endT : ℚ) : Bool :=
  decide (startT - TIME_EPSILON ≤ time ∧ time ≤ endT + TIME_EPSILON)

/-- The filter applied to annotations when no annotation is explicitly
selected: `ann.drawingData && isTimeInRange(currentTime, ann.startTime, ann.endTime)`. -/
def matchesTime {α : Type} (currentTime : ℚ) (a : Annotation α) : Bool :=
  a.drawingData.isSome && isTimeInRange currentTime a.startTime a.endTime

/-- JavaScript's default lexicographic string comparison, used by
`Array.prototype.sort` on the id list. -/
def strLe : List Char → List Char → Bool
  | [], _ => true
  | _ :: _, [] => false
  | a :: as, b :: bs => if a < b then true else if b < a then false else strLe as bs

/-- Source: `visibleAnnotationIdsString`: the memoised signature of the currently
visible drawing annotations — empty in drawing mode; the selected
annotation's id (or empty) when a selection exists; otherwise the sorted,
comma-joined ids of all matching annotations. -/
def visibleAnnotationIdsString {α : Type} (isDrawingMode : Bool)
    (activeAnnotationId : Option (List Char)) (annotations : List ( Annotation α))
    (currentTime : ℚ) : List Char :=
  if isDrawingMode then []
  else
    match activeAnnotationId with
    | some aid =>
      match annotations.find? (fun a => a.id == aid) with
      | some activeAnn =>
          if activeAnn.drawingData.isSome &&
              isTimeInRange currentTime activeAnn.startTime activeAnn.endTime then
            activeAnn.id
          else []
      | Option.none => []
    | Option.none =>
      [','].intercalate
        (((annotations.filter (matchesTime currentTime)).map (fun a => a.id)).mergeSort strLe)

/-- Source: `ann.drawingData?.objects || []`. -/
def drawnObjects {α : Type} (a : Annotation α) : List α :=
  match a.drawingData with
  | some d => d.objects
  | Option.none => []

/-- Source: `activeDrawing`: null on an empty signature; otherwise the annotations
whose id occurs in the signature are gathered — null if none, the single
annotation's payload verbatim if one, and a fresh document merging all
their object lists (with version `"5.3.0"`) if several. -/
def activeDrawing {α : Type} (annotations : List ( Annotation α)) (sig : List Char) :
    Option (DrawingPath α) :=
  if sig = [] then Option.none
  else
    match annotations.filter (fun a => (sig.splitOn ',').contains a.id) with
    | [] => Option.none
    | [a] => a.drawingData
    | visibleAnns =>
        some ⟨"5.3.0", visibleAnns.flatMap drawnObjects⟩

/-- The two memos composed: the drawing document the app renders for a
given mode, selection, annotation set and playback time. -/
def resolveActiveDrawing {α : Type} (isDrawingMode : Bool)
    (activeAnnotationId : Option (List Char)) (annotations : List ( Annotation α))
    (currentTime : ℚ) : Option (DrawingPath α) :=
  activeDrawing annotations
    (visibleAnnotationIdsString isDrawingMode activeAnnotationId annotations currentTime)

/-- Well-formedness of an annotation collection as produced by the server:
ids are nonempty, contain no comma (they are uuid-like opaque tokens) and
are pairwise distinct. -/
def WellFormedIds {α : Type} (annotations : List ( Annotation α)) : Prop :=
  (∀ a ∈ annotations, a.id ≠ [] ∧ ',' ∉ a.id) ∧
    (annotations.map (fun a => a.id)).Nodup

/-! ## API failure surfacing (services/api.ts and App handlers) -/

/-- The outcome of a fetch to the backend: either the decoded payload or a
network/server failure. -/
inductive ApiResult (α : Type) where
  | ok (val : α)
  | err (msg : String)

namespace Api

/-- Source: `getAnnotations` (services/api.ts): a failed response is caught,
logged to the console, and an empty list is returned. -/
def getAnnotations {α : Type} (resp : ApiResult (List ( Annotation α))) :
    List ( Annotation α) :=
  match resp with
  | ApiResult.ok l => l
  | ApiResult.err _ => []

/-- Source: `saveAnnotation` (services/api.ts): a failed response throws
`Error('Failed to save annotation')`. -/
def saveAnnotation {α : Type} (resp : ApiResult ( Annotation α)) :
    Except String ( Annotation α) :=
  match resp with
  | ApiResult.ok a => Except.ok a
  | ApiResult.err e => Except.error e

/-- Source: `exportAnnotations` (services/api.ts): a failed response throws. -/
def exportAnnotations {α : Type} (resp : ApiResult α) : Except String α :=
  match resp with
  | ApiResult.ok d => Except.ok d
  | ApiResult.err e => Except.error e

/-- Source: `importAnnotations` (services/api.ts): a failed response throws. -/
def importAnnotations (resp : ApiResult ℕ) : Except String ℕ :=
  match resp with
  | ApiResult.ok n => Except.ok n
  | ApiResult.err e => Except.error e

/-- Source: `createUser` (services/api.ts): a failed response throws. -/
def createUser (resp : ApiResult User) : Except String User :=
  match resp with
  | ApiResult.ok u => Except.ok u
  | ApiResult.err e => Except.error e

end Api

namespace App

/-- The `loadAnnotations` effect run when a video loads: the fetched list
is stored as-is and no alert is ever raised on this path. -/
def loadAnnotations {α : Type} (resp : ApiResult (List ( Annotation α))) :
    List ( Annotation α) × List String :=
  (Api.getAnnotations resp, [])

/-- The alerts `handleAddComment` raises: its `catch` shows one alert when
the save throws. -/
def handleAddCommentAlerts {α : Type} (resp : ApiResult ( Annotation α)) : List String :=
  match Api.saveAnnotation resp with
  | Except.ok _ => []
  | Except.error _ => ["Failed to save annotation. Please make sure the server is running."]

/-- The alerts `handleExport` raises on a failed export. -/
def handleExportAlerts {α : Type} (resp : ApiResult α) : List String :=
  match Api.exportAnnotations resp with
  | Except.ok _ => []
  | Except.error _ => ["Failed to export annotations."]

/-- The alerts `handleImportFile` raises on a failed import request. -/
def handleImportAlerts (resp : ApiResult ℕ) : List String :=
  match Api.importAnnotations resp with
  | Except.ok _ => []
  | Except.error _ => ["Failed to import annotations. Make sure the file is valid JSON."]

/-- The alerts `handleUserCreate` raises on a failed user creation. -/
def handleUserCreateAlerts (resp : ApiResult User) : List String :=
  match Api.createUser resp with
  | Except.ok _ => []
  | Except.error _ => ["Failed to create user. Please make sure the server is running."]

end App

/-! ## Local annotation storage (services/storage.ts) -/

namespace Storage

/-- Source: `clearAnnotations` (services/storage.ts): with no stored value the key
stays absent; otherwise the stored list is replaced by the annotations
whose `videoId` differs from the argument. -/
def clearAnnotations {α : Type} (raw : Option (List ( Annotation α))) (videoId : String) :
    Option (List ( Annotation α)) :=
  match raw with
  | Option.none => Option.none
  | some all => some (all.filter (fun a => a.videoId ≠ videoId))

end Storage

/-! ## Theorems -/

/-- C1: a drag begun on the empty track (state `creating`) that ends with
pointer-up within 0.1 s of the drag anchor is a plain seek to the
pointer-up time, leaving any existing SelectionRange unchanged; otherwise
`[min(anchor, cursor), max(anchor, cursor)]` becomes the new
SelectionRange and the playhead seeks to its start. -/
theorem create_mouseUp_click_vs_drag (anchor cursor : ℚ) (sel : Option SelRange) :
    (|cursor - anchor| < 1/10 →
      (handleGlobalMouseUp cursor (handleMouseDown anchor)).2.seekTo = some cursor ∧
      applyRangeSelect sel (handleGlobalMouseUp cursor (handleMouseDown anchor)).2 = sel) ∧
    (1/10 ≤ |cursor - anchor| →
      (handleGlobalMouseUp cursor (handleMouseDown anchor)).2.rangeSelect =
        some ⟨min anchor cursor, max anchor cursor⟩ ∧
      (handleGlobalMouseUp cursor (handleMouseDown anchor)).2.seekTo =
        some (min anchor cursor) ∧
      applyRangeSelect sel (handleGlobalMouseUp cursor (handleMouseDown anchor)).2 =
        some ⟨min anchor cursor, max anchor cursor⟩) := by
  constructor
  · intro h
    simp only [handleGlobalMouseUp, handleMouseDown]
    rw [if_pos h]
    simp [applyRangeSelect]
  · intro h
    simp only [handleGlobalMouseUp, handleMouseDown]
    rw [if_neg (not_lt.mpr h)]
    simp [applyRangeSelect]

/-- C1 witness: anchor 10 with pointer-up at 10.05 seeks to 10.05 and
keeps the selection `[3, 5]`; pointer-up at 10.2 commits `[10, 10.2]`. -/
theorem create_mouseUp_click_vs_drag_witness :
    (|(201/20 : ℚ) - 10| < 1/10 ∧
      (handleGlobalMouseUp (201/20) (handleMouseDown 10)).2.seekTo = some (201/20) ∧
      applyRangeSelect (some ⟨3, 5⟩) (handleGlobalMouseUp (201/20) (handleMouseDown 10)).2 =
        some ⟨3, 5⟩) ∧
    ((1/10 : ℚ) ≤ |(51/5 : ℚ) - 10| ∧
      (handleGlobalMouseUp (51/5) (handleMouseDown 10)).2.rangeSelect =
        some ⟨min 10 (51/5), max 10 (51/5)⟩ ∧
      (handleGlobalMouseUp (51/5) (handleMouseDown 10)).2.seekTo =
        some (min 10 (51/5))) := by
  have h1 : |(201/20 : ℚ) - 10| < 1/10 := by
    rw [abs_sub_lt_iff]; constructor <;> norm_num
  have h2 : (1/10 : ℚ) ≤ |(51/5 : ℚ) - 10| := by
    have : |(51/5 : ℚ) - 10| = 1/5 := by rw [abs_of_nonneg] <;> norm_num
    rw [this]; norm_num
  have w1 := (create_mouseUp_click_vs_drag 10 (201/20) (some ⟨3, 5⟩)).1 h1
  have w2 := (create_mouseUp_click_vs_drag 10 (51/5) (some ⟨3, 5⟩)).2 h2
  exact ⟨⟨h1, w1.1, w1.2⟩, ⟨h2, w2.1, w2.2.1⟩⟩

/-- C7 counterexample: with provisional range `[0, 0.03]` (fixed end
within 0.05 s of the clamping bound 0), a pointer-move in `extendingStart`
sets the start to 0, which is not at least 0.05 s before the fixed end —
the claim fails at this input. -/
theorem extend_move_gap_cex :
    (handleGlobalMouseMove 100 (1/2)
        ⟨DragMode.extendStart, Option.none, some ⟨0, 3/100⟩⟩).tempRange =
      some ⟨0, 3/100⟩ ∧
    ¬((0 : ℚ) + 1/20 ≤ 3/100) := by
  constructor
  · simp only [handleGlobalMouseMove]
    norm_num [min_def, max_def]
  · norm_num

/-- C7 amended: in `extendingStart` every pointer-move leaves the end
fixed and sets the start to `max(0, min(cursor, end - 0.05))`, which is at
least 0.05 s before the fixed end whenever that end is at least 0.05;
symmetrically in `extendingEnd` the start stays fixed and the new end is
at least 0.05 s after it whenever the fixed start is at most
`duration - 0.05`.  At fixed ends below 0.05 (resp. starts above
`duration - 0.05`) the clamping to `[0, duration]` wins and the gap can be
smaller. -/
theorem extend_move_gap (duration time : ℚ) (r : SelRange) :
    ((handleGlobalMouseMove duration time
        ⟨DragMode.extendStart, Option.none, some r⟩).tempRange.map SelRange.«end» =
      some r.«end» ∧
      (1/20 ≤ r.«end» →
        ∃ r', (handleGlobalMouseMove duration time
            ⟨DragMode.extendStart, Option.none, some r⟩).tempRange = some r' ∧
          r'.start + 1/20 ≤ r.«end»)) ∧
    ((handleGlobalMouseMove duration time
        ⟨DragMode.extendEnd, Option.none, some r⟩).tempRange.map SelRange.start =
      some r.start ∧
      (r.start + 1/20 ≤ duration →
        ∃ r', (handleGlobalMouseMove duration time
            ⟨DragMode.extendEnd, Option.none, some r⟩).tempRange = some r' ∧
          r.start + 1/20 ≤ r'.«end»)) := by
  refine ⟨⟨by simp [handleGlobalMouseMove], ?_⟩, ⟨by simp [handleGlobalMouseMove], ?_⟩⟩
  · intro hend
    refine ⟨⟨max 0 (min time (r.«end» - 1/20)), r.«end»⟩, by simp [handleGlobalMouseMove], ?_⟩
    have h1 : min time (r.«end» - 1/20) ≤ r.«end» - 1/20 := min_le_right _ _
    have h2 : max 0 (min time (r.«end» - 1/20)) ≤ r.«end» - 1/20 :=
      max_le (by linarith) h1
    linarith
  · intro hstart
    refine ⟨⟨r.start, min duration (max time (r.start + 1/20))⟩,
      by simp [handleGlobalMouseMove], ?_⟩
    have h1 : r.start + 1/20 ≤ max time (r.start + 1/20) := le_max_right _ _
    have h2 : r.start + 1/20 ≤ min duration (max time (r.start + 1/20)) :=
      le_min hstart h1
    simpa using h2

/-- C7 witness: with duration 60 and provisional range `[10, 20]`, a move
to 19.99 in `extendingStart` keeps the start at least 0.05 before the end
20, and a move in `extendingEnd` keeps the end at least 0.05 after the
start 10. -/
theorem extend_move_gap_witness :
    ((1/20 : ℚ) ≤ (20 : ℚ) ∧
      ∃ r', (handleGlobalMouseMove 60 (1999/100)
          ⟨DragMode.extendStart, Option.none, some ⟨10, 20⟩⟩).tempRange = some r' ∧
        r'.start + 1/20 ≤ (20 : ℚ)) ∧
    ((10 : ℚ) + 1/20 ≤ 60 ∧
      ∃ r', (handleGlobalMouseMove 60 (1999/100)
          ⟨DragMode.extendEnd, Option.none, some ⟨10, 20⟩⟩).tempRange = some r' ∧
        (10 : ℚ) + 1/20 ≤ r'.«end») := by
  have h1 : (1/20 : ℚ) ≤ (⟨10, 20⟩ : SelRange).«end» := by norm_num
  have h2 : (⟨10, 20⟩ : SelRange).start + 1/20 ≤ (60 : ℚ) := by norm_num
  exact ⟨⟨h1, (extend_move_gap 60 (1999/100) ⟨10, 20⟩).1.2 h1⟩,
    ⟨h2, (extend_move_gap 60 (1999/100) ⟨10, 20⟩).2.2 h2⟩⟩

/-- C2: for every duration ≥ 0, every zoom level in `{1, 2, 4, 8, 16}`
and every zoom center, the visible window `[actualViewStart, actualViewEnd]`
is contained in `[0, duration]` and has width exactly `duration / zoomLevel`. -/
theorem zoom_window_containment (duration zoomLevel zoomCenter : ℚ)
    (hd : 0 ≤ duration) (hz : zoomLevel ∈ ZOOM_LEVELS) :
    0 ≤ actualViewStart duration zoomLevel zoomCenter ∧
    actualViewEnd duration zoomLevel zoomCenter ≤ duration ∧
    actualViewEnd duration zoomLevel zoomCenter -
      actualViewStart duration zoomLevel zoomCenter = duration / zoomLevel := by
  have h1 : (1 : ℚ) ≤ zoomLevel := by
    have hz' : zoomLevel = 1 ∨ zoomLevel = 2 ∨ zoomLevel = 4 ∨
        zoomLevel = 8 ∨ zoomLevel = 16 := by
      simpa [ZOOM_LEVELS] using hz
    rcases hz' with h | h | h | h | h <;> rw [h] <;> norm_num
  have hvd0 : 0 ≤ visibleDuration duration zoomLevel :=
    div_nonneg hd (by linarith)
  have hvdle : visibleDuration duration zoomLevel ≤ duration :=
    div_le_self hd h1
  unfold actualViewEnd actualViewStart
  by_cases hc : viewEnd duration zoomLevel zoomCenter = duration
  · rw [if_pos hc]
    rw [max_eq_right (by linarith : (0:ℚ) ≤ duration - visibleDuration duration zoomLevel)]
    refine ⟨by linarith, by linarith, ?_⟩
    unfold visibleDuration
    ring
  · rw [if_neg hc]
    have hvs : 0 ≤ viewStart duration zoomLevel zoomCenter := le_max_left _ _
    have hle : viewStart duration zoomLevel zoomCenter +
        visibleDuration duration zoomLevel ≤ duration := by
      by_contra hlt
      push_neg at hlt
      exact hc (min_eq_left (le_of_lt hlt))
    refine ⟨hvs, by linarith, ?_⟩
    unfold visibleDuration
    ring

/-- C2 witness: duration 120, zoom level 4, center 35 — the window is
inside `[0, 120]` with width 30. -/
theorem zoom_window_containment_witness :
    (0 : ℚ) ≤ 120 ∧ (4 : ℚ) ∈ ZOOM_LEVELS ∧
    (0 ≤ actualViewStart 120 4 35 ∧
      actualViewEnd 120 4 35 ≤ 120 ∧
      actualViewEnd 120 4 35 - actualViewStart 120 4 35 = 120 / 4) := by
  have hd : (0 : ℚ) ≤ 120 := by norm_num
  have hz : (4 : ℚ) ∈ ZOOM_LEVELS := by
    norm_num [ZOOM_LEVELS]
  exact ⟨hd, hz, zoom_window_containment 120 4 35 hd hz⟩

/-- Source: `file.slice(0, CHUNK_SIZE)` is the first 1 MiB when the file is at
least that large. -/
lemma blobSlice_first (bytes : List ℕ) (hl : CHUNK_SIZE ≤ bytes.length) :
    blobSlice bytes 0 CHUNK_SIZE = bytes.take CHUNK_SIZE := by
  unfold blobSlice
  have hs : relPos bytes.length 0 = 0 := by
    unfold relPos
    rw [if_neg (by omega)]
    omega
  have he : relPos bytes.length CHUNK_SIZE = CHUNK_SIZE := by
    unfold relPos
    rw [if_neg (by omega)]
    omega
  rw [hs, he]
  simp

/-- Source: `file.slice(midStart, midStart + CHUNK_SIZE)` is exactly the 1 MiB of
bytes starting at `floor(size / 2) - 512 KiB` when the file exceeds 3 MiB. -/
lemma blobSlice_mid (bytes : List ℕ) (hl : CHUNK_SIZE * 3 < bytes.length) :
    blobSlice bytes ((bytes.length / 2 : ℕ) - (CHUNK_SIZE / 2 : ℕ))
        (((bytes.length / 2 : ℕ) - (CHUNK_SIZE / 2 : ℕ)) + CHUNK_SIZE) =
      (bytes.drop (bytes.length / 2 - CHUNK_SIZE / 2)).take CHUNK_SIZE := by
  unfold blobSlice
  have hC : CHUNK_SIZE = 1048576 := by norm_num [CHUNK_SIZE]
  rw [hC] at hl ⊢
  have hs : relPos bytes.length ((bytes.length / 2 : ℕ) - (1048576 / 2 : ℕ)) =
      ((bytes.length / 2 : ℕ) : ℤ) - ((1048576 / 2 : ℕ) : ℤ) := by
    unfold relPos
    rw [if_neg (by omega)]
    omega
  have he : relPos bytes.length
        (((bytes.length / 2 : ℕ) - (1048576 / 2 : ℕ)) + (1048576 : ℕ)) =
      (((bytes.length / 2 : ℕ) - (1048576 / 2 : ℕ)) + (1048576 : ℕ) : ℤ) := by
    unfold relPos
    rw [if_neg (by omega)]
    omega
  rw [hs, he]
  have h1 : (((bytes.length / 2 : ℕ) : ℤ) - ((1048576 / 2 : ℕ) : ℤ)).toNat =
      bytes.length / 2 - 1048576 / 2 := by omega
  have h2 : ((((bytes.length / 2 : ℕ) - (1048576 / 2 : ℕ)) + (1048576 : ℕ) : ℤ) -
      (((bytes.length / 2 : ℕ) : ℤ) - ((1048576 / 2 : ℕ) : ℤ))).toNat = 1048576 := by
    omega
  rw [h1, h2]

/-- Source: `file.slice(-CHUNK_SIZE)` is the last 1 MiB when the file is at least
that large. -/
lemma blobSlice_last (bytes : List ℕ) (hl : CHUNK_SIZE ≤ bytes.length) :
    blobSlice bytes (-(CHUNK_SIZE : ℤ)) bytes.length =
      bytes.drop (bytes.length - CHUNK_SIZE) := by
  unfold blobSlice
  have hs : relPos bytes.length (-(CHUNK_SIZE : ℤ)) =
      ((bytes.length : ℤ) - CHUNK_SIZE) := by
    unfold relPos
    rw [if_pos (by simp only [CHUNK_SIZE]; omega)]
    omega
  have he : relPos bytes.length bytes.length = bytes.length := by
    unfold relPos
    rw [if_neg (by omega)]
    omega
  rw [hs, he]
  have h1 : ((bytes.length : ℤ) - CHUNK_SIZE).toNat = bytes.length - CHUNK_SIZE := by
    omega
  have h2 : ((bytes.length : ℤ) - ((bytes.length : ℤ) - CHUNK_SIZE)).toNat =
      CHUNK_SIZE := by omega
  rw [h1, h2]
  exact List.take_of_length_le (by simp; omega)

/-- C3: for every input of more than 3 MiB, `generateFastFileHash` applies
the digest function (SHA-256, lowercase hex, from `js-sha256`) to the
single message consisting of the decimal string of the total byte length,
the first 1 MiB, the 1 MiB starting at `floor(size / 2) - 512 KiB`, and
the last 1 MiB, concatenated in this exact order. -/
theorem fast_hash_sampled_message (h : List ℕ → String) (bytes : List ℕ)
    (hl : 3 * 1024 * 1024 < bytes.length) :
    generateFastFileHash h bytes = h (sampledMessageSpec bytes) := by
  have hl' : CHUNK_SIZE * 3 < bytes.length := by
    simpa [CHUNK_SIZE] using (by omega : 1024 * 1024 * 3 < bytes.length)
  rw [generateFastFileHash, if_neg (by omega)]
  congr 1
  unfold fastSampleMessage sampledMessageSpec
  rw [blobSlice_first bytes (by omega), blobSlice_mid bytes hl',
    blobSlice_last bytes (by omega)]
  norm_num [CHUNK_SIZE]

/-- C3 witness: a file of 3 MiB + 1 zero bytes exceeds the threshold, and
its fast hash is the digest of the sampled message. -/
theorem fast_hash_sampled_message_witness :
    3 * 1024 * 1024 < (List.replicate (3 * 1024 * 1024 + 1) (0 : ℕ)).length ∧
    generateFastFileHash (fun _ => "") (List.replicate (3 * 1024 * 1024 + 1) (0 : ℕ)) =
      (fun _ => "") (sampledMessageSpec (List.replicate (3 * 1024 * 1024 + 1) (0 : ℕ))) := by
  have hl : 3 * 1024 * 1024 < (List.replicate (3 * 1024 * 1024 + 1) (0 : ℕ)).length := by
    rw [List.length_replicate]
    omega
  exact ⟨hl, fast_hash_sampled_message (fun _ => "") _ hl⟩

/-- C4: `generateFastFileHash` hashes the entire byte stream for every
input of at most 3 MiB and hashes the sampled composite message for every
larger input; in particular the boundary sits exactly between 3 MiB and
3 MiB + 1 byte. -/
theorem fast_hash_method_boundary (h : List ℕ → String) (bytes : List ℕ) :
    (bytes.length ≤ 3 * 1024 * 1024 → generateFastFileHash h bytes = h bytes) ∧
    (3 * 1024 * 1024 < bytes.length →
      generateFastFileHash h bytes = h (fastSampleMessage bytes)) := by
  constructor
  · intro hl
    rw [generateFastFileHash, if_pos (by simp only [CHUNK_SIZE]; omega)]
    rfl
  · intro hl
    rw [generateFastFileHash, if_neg (by simp only [CHUNK_SIZE]; omega)]

/-- C4 witness: a file of exactly 3 MiB uses the full hash; a file of
3 MiB + 1 bytes uses the sampled hash. -/
theorem fast_hash_method_boundary_witness :
    ((List.replicate (3 * 1024 * 1024) (0 : ℕ)).length ≤ 3 * 1024 * 1024 ∧
      generateFastFileHash (fun _ => "") (List.replicate (3 * 1024 * 1024) (0 : ℕ)) =
        (fun _ => "") (List.replicate (3 * 1024 * 1024) (0 : ℕ))) ∧
    (3 * 1024 * 1024 < (List.replicate (3 * 1024 * 1024 + 1) (0 : ℕ)).length ∧
      generateFastFileHash (fun _ => "") (List.replicate (3 * 1024 * 1024 + 1) (0 : ℕ)) =
        (fun _ => "") (fastSampleMessage (List.replicate (3 * 1024 * 1024 + 1) (0 : ℕ)))) := by
  have hl1 : (List.replicate (3 * 1024 * 1024) (0 : ℕ)).length ≤ 3 * 1024 * 1024 := by
    rw [List.length_replicate]
  have hl2 : 3 * 1024 * 1024 < (List.replicate (3 * 1024 * 1024 + 1) (0 : ℕ)).length := by
    rw [List.length_replicate]
    omega
  exact ⟨⟨hl1, (fast_hash_method_boundary _ _).1 hl1⟩,
    ⟨hl2, (fast_hash_method_boundary _ _).2 hl2⟩⟩

/-- A range satisfying the committed-range invariant for a given duration. -/
def RangeInBounds (duration : ℚ) (r : SelRange) : Prop :=
  0 ≤ r.start ∧ r.start ≤ r.«end» ∧ r.«end» ≤ duration

/-- The drag-session invariant: any recorded drag anchor and any
provisional range lie within `[0, duration]` (with `start ≤ end` for the
range). -/
def StateInBounds (duration : ℚ) (s : TimelineState) : Prop :=
  (∀ a, s.dragStart = some a → 0 ≤ a ∧ a ≤ duration) ∧
    (∀ r, s.tempRange = some r → RangeInBounds duration r)

/-- A global mouse-move preserves the drag-session invariant (for any
pointer time: the handler's own clamping suffices). -/
lemma move_preserves_bounds (duration time : ℚ) (s : TimelineState)
    (h : StateInBounds duration s) :
    StateInBounds duration (handleGlobalMouseMove duration time s) := by
  obtain ⟨hdb, htb⟩ := h
  rcases s with ⟨mode, ds, tr⟩
  cases mode <;> rcases tr with _ | pr <;>
    first
      | exact ⟨hdb, htb⟩
      | skip
  · -- extend-start with a provisional range
    obtain ⟨h0, h1, h2⟩ := htb pr rfl
    refine ⟨hdb, fun r hr => ?_⟩
    simp only [handleGlobalMouseMove] at hr
    obtain rfl : r = ⟨max 0 (min time (pr.«end» - 1/20)), pr.«end»⟩ :=
      (Option.some.injEq _ _ ▸ hr).symm
    refine ⟨le_max_left _ _, ?_, h2⟩
    exact max_le (by linarith) (le_trans (min_le_right _ _) (by linarith))
  · -- extend-end with a provisional range
    obtain ⟨h0, h1, h2⟩ := htb pr rfl
    refine ⟨hdb, fun r hr => ?_⟩
    simp only [handleGlobalMouseMove] at hr
    obtain rfl : r = ⟨pr.start, min duration (max time (pr.start + 1/20))⟩ :=
      (Option.some.injEq _ _ ▸ hr).symm
    refine ⟨h0, ?_, min_le_left _ _⟩
    exact le_min (by linarith) (le_trans (by linarith) (le_max_right _ _))

/-- Replaying any list of mouse-moves preserves the invariant. -/
lemma moveSteps_preserves_bounds (duration : ℚ) (times : List ℚ) (s : TimelineState)
    (h : StateInBounds duration s) :
    StateInBounds duration (moveSteps duration times s) := by
  induction times generalizing s with
  | nil => exact h
  | cons t ts ih => exact ih _ (move_preserves_bounds duration t s h)

/-- Source: `getTimeFromEvent` always produces a time in `[0, duration]`. -/
lemma eventTime_bounds (duration : ℚ) (hd : 0 ≤ duration) (e : PointerEvent) :
    0 ≤ eventTime duration e ∧ eventTime duration e ≤ duration := by
  unfold eventTime getTimeFromEvent
  split
  · exact ⟨le_refl 0, hd⟩
  · exact ⟨le_max_left _ _, max_le hd (min_le_left _ _)⟩

/-- A mouse-up on an in-bounds state with an in-bounds pointer time only
commits in-bounds ranges. -/
lemma mouseUp_commit_bounds (duration time : ℚ) (s : TimelineState)
    (hs : StateInBounds duration s) (ht : 0 ≤ time ∧ time ≤ duration) (r : SelRange)
    (hcommit : (handleGlobalMouseUp time s).2.rangeSelect = some r) :
    RangeInBounds duration r := by
  obtain ⟨hdb, htb⟩ := hs
  rcases s with ⟨mode, ds, tr⟩
  cases mode
  case none =>
    rcases ds with _ | a <;> rcases tr with _ | pr <;>
      simp [handleGlobalMouseUp] at hcommit
  case create =>
    rcases ds with _ | a
    · rcases tr with _ | pr <;> simp [handleGlobalMouseUp] at hcommit
    · obtain ⟨ha0, ha1⟩ := hdb a rfl
      rcases tr with _ | pr
      · simp only [handleGlobalMouseUp] at hcommit
        split at hcommit
        · simp at hcommit
        · obtain rfl : r = ⟨min a time, max a time⟩ := by
            simpa using hcommit.symm
          exact ⟨le_min ha0 ht.1, le_trans (min_le_left _ _) (le_max_left _ _),
            max_le ha1 ht.2⟩
      · simp only [handleGlobalMouseUp] at hcommit
        split at hcommit
        · simp at hcommit
        · obtain rfl : r = ⟨min a time, max a time⟩ := by
            simpa using hcommit.symm
          exact ⟨le_min ha0 ht.1, le_trans (min_le_left _ _) (le_max_left _ _),
            max_le ha1 ht.2⟩
  case extendStart =>
    rcases tr with _ | pr
    · rcases ds with _ | a <;> simp [handleGlobalMouseUp] at hcommit
    · obtain rfl : r = pr := by
        rcases ds with _ | a <;> simpa [handleGlobalMouseUp] using hcommit.symm
      exact htb r rfl
  case extendEnd =>
    rcases tr with _ | pr
    · rcases ds with _ | a <;> simp [handleGlobalMouseUp] at hcommit
    · obtain rfl : r = pr := by
        rcases ds with _ | a <;> simpa [handleGlobalMouseUp] using hcommit.symm
      exact htb r rfl

/-- C8: every SelectionRange committed at pointer-up — from a create-drag
or from dragging either handle — satisfies
`0 ≤ start ≤ end ≤ duration`, given that pointer positions are converted
to times through `getTimeFromEvent` (which clamps to `[0, duration]`) and
that any pre-existing SelectionRange already satisfied the bounds. -/
theorem committed_range_in_bounds (duration : ℚ) (hd : 0 ≤ duration)
    (sel : Option SelRange)
    (hsel : ∀ r, sel = some r → RangeInBounds duration r)
    (s0 : TimelineState)
    (h0 : (∃ e0, s0 = handleMouseDown (eventTime duration e0)) ∨
      s0 = handleStartHandleMouseDown sel ∨ s0 = handleEndHandleMouseDown sel)
    (moves : List PointerEvent) (eUp : PointerEvent) (r : SelRange)
    (hcommit : (handleGlobalMouseUp (eventTime duration eUp)
        (moveSteps duration (moves.map (eventTime duration)) s0)).2.rangeSelect =
      some r) :
    0 ≤ r.start ∧ r.start ≤ r.«end» ∧ r.«end» ≤ duration := by
  have hs0 : StateInBounds duration s0 := by
    rcases h0 with ⟨e0, rfl⟩ | rfl | rfl
    · refine ⟨fun a ha => ?_, fun r' hr' => by simp [handleMouseDown] at hr'⟩
      obtain rfl : a = eventTime duration e0 := by
        simpa [handleMouseDown] using ha.symm
      exact eventTime_bounds duration hd e0
    · rcases sel with _ | pr
      · exact ⟨fun a ha => by simp [handleStartHandleMouseDown, idleState] at ha,
          fun r' hr' => by simp [handleStartHandleMouseDown, idleState] at hr'⟩
      · refine ⟨fun a ha => by simp [handleStartHandleMouseDown] at ha,
          fun r' hr' => ?_⟩
        obtain rfl : r' = pr := by
          simpa [handleStartHandleMouseDown] using hr'.symm
        exact hsel r' rfl
    · rcases sel with _ | pr
      · exact ⟨fun a ha => by simp [handleEndHandleMouseDown, idleState] at ha,
          fun r' hr' => by simp [handleEndHandleMouseDown, idleState] at hr'⟩
      · refine ⟨fun a ha => by simp [handleEndHandleMouseDown] at ha,
          fun r' hr' => ?_⟩
        obtain rfl : r' = pr := by
          simpa [handleEndHandleMouseDown] using hr'.symm
        exact hsel r' rfl
  exact mouseUp_commit_bounds duration (eventTime duration eUp) _
    (moveSteps_preserves_bounds duration _ s0 hs0)
    (eventTime_bounds duration hd eUp) r hcommit

/-- C8 witness: with duration 100, a drag anchored at pointer time 10 and
released at pointer time 10.2 commits the range `[10, 10.2]`, which obeys
the bounds. -/
theorem committed_range_in_bounds_witness :
    (0 : ℚ) ≤ 100 ∧
    (handleGlobalMouseUp (eventTime 100 ⟨51/5, 100, 1, 50⟩)
        (moveSteps 100 (([] : List PointerEvent).map (eventTime 100))
          (handleMouseDown (eventTime 100 ⟨10, 100, 1, 50⟩)))).2.rangeSelect =
      some ⟨10, 51/5⟩ ∧
    (0 ≤ (10 : ℚ) ∧ (10 : ℚ) ≤ 51/5 ∧ (51/5 : ℚ) ≤ 100) := by
  have hd : (0 : ℚ) ≤ 100 := by norm_num
  have het1 : eventTime 100 ⟨10, 100, 1, 50⟩ = 10 := by
    norm_num [eventTime, getTimeFromEvent, actualViewStart, viewEnd, viewStart,
      visibleDuration, min_def, max_def]
  have het2 : eventTime 100 ⟨51/5, 100, 1, 50⟩ = 51/5 := by
    norm_num [eventTime, getTimeFromEvent, actualViewStart, viewEnd, viewStart,
      visibleDuration, min_def, max_def]
  have habs : ¬(|(51/5 : ℚ) - 10| < 1/10) := by
    have : |(51/5 : ℚ) - 10| = 1/5 := by rw [abs_of_nonneg] <;> norm_num
    rw [this]
    norm_num
  have hcommit : (handleGlobalMouseUp (eventTime 100 ⟨51/5, 100, 1, 50⟩)
      (moveSteps 100 (([] : List PointerEvent).map (eventTime 100))
        (handleMouseDown (eventTime 100 ⟨10, 100, 1, 50⟩)))).2.rangeSelect =
      some ⟨10, 51/5⟩ := by
    rw [het1, het2]
    simp only [List.map_nil, moveSteps, List.foldl_nil, handleMouseDown,
      handleGlobalMouseUp]
    rw [if_neg habs]
    norm_num [min_def, max_def]
  refine ⟨hd, hcommit, ?_⟩
  have := committed_range_in_bounds 100 hd Option.none (by simp) _
    (Or.inl ⟨⟨10, 100, 1, 50⟩, rfl⟩) [] ⟨51/5, 100, 1, 50⟩ ⟨10, 51/5⟩ hcommit
  simpa [RangeInBounds] using this

/-- C9: `clearAnnotations v` removes all and only the annotations whose
`videoId` equals `v`: no annotation for `v` remains, the result is a
sublist of the store (order and contents untouched), every annotation for
another video stays, and multiplicities of other videos' annotations are
unchanged. -/
theorem clearAnnotations_exact {α : Type} [DecidableEq α]
    (all res : List ( Annotation α)) (v : String)
    (h : Storage.clearAnnotations (some all) v = some res) :
    (∀ a ∈ res, a.videoId ≠ v) ∧ res.Sublist all ∧
      (∀ a ∈ all, a.videoId ≠ v → a ∈ res) ∧
      (∀ a : Annotation α, a.videoId ≠ v → res.count a = all.count a) := by
  have hres : res = all.filter (fun a => a.videoId ≠ v) := by
    have := h
    simp only [Storage.clearAnnotations, Option.some.injEq] at this
    exact this.symm
  subst hres
  refine ⟨?_, List.filter_sublist _, ?_, ?_⟩
  · intro a ha
    simpa using (List.mem_filter.mp ha).2
  · intro a ha hne
    exact List.mem_filter.mpr ⟨ha, by simpa using hne⟩
  · intro a hne
    exact List.count_filter (by simpa using hne)

/-- C9 witness: clearing `"v1"` from a store holding one annotation for
`"v1"` and one for `"v2"` keeps exactly the `"v2"` annotation. -/
theorem clearAnnotations_exact_witness :
    Storage.clearAnnotations
        (some [⟨['a'], "v1", 0, 1, ⟨"u1", "alice"⟩, "first", 0, AnnotationType.comment,
            Option.none⟩,
          ⟨['b'], "v2", 2, 3, ⟨"u2", "bob"⟩, "second", 1, AnnotationType.comment,
            (Option.none : Option (DrawingPath Unit))⟩]) "v1" =
      some [⟨['b'], "v2", 2, 3, ⟨"u2", "bob"⟩, "second", 1, AnnotationType.comment,
        Option.none⟩] ∧
    (∀ a ∈ [⟨['b'], "v2", 2, 3, ⟨"u2", "bob"⟩, "second", 1, AnnotationType.comment,
        (Option.none : Option (DrawingPath Unit))⟩], Annotation.videoId a ≠ "v1") := by
  have h : Storage.clearAnnotations
      (some [⟨['a'], "v1", 0, 1, ⟨"u1", "alice"⟩, "first", 0, AnnotationType.comment,
          Option.none⟩,
        ⟨['b'], "v2", 2, 3, ⟨"u2", "bob"⟩, "second", 1, AnnotationType.comment,
          (Option.none : Option (DrawingPath Unit))⟩]) "v1" =
      some [⟨['b'], "v2", 2, 3, ⟨"u2", "bob"⟩, "second", 1, AnnotationType.comment,
        Option.none⟩] := by
    simp [Storage.clearAnnotations]
  exact ⟨h, (clearAnnotations_exact _ _ _ h).1⟩

/-- With well-formed ids, filtering the annotation list by membership of
the id in the sorted visible-id list recovers exactly the annotations
matching the current time. -/
lemma filter_contains_sorted_ids {α : Type} (annotations : List ( Annotation α))
    (t : ℚ) (h : WellFormedIds annotations) :
    annotations.filter
        (fun a => ((((annotations.filter (matchesTime t)).map
          (fun a => a.id)).mergeSort strLe).contains a.id)) =
      annotations.filter (matchesTime t) := by
  apply List.filter_congr
  intro a ha
  have hperm : (((annotations.filter (matchesTime t)).map
      (fun a => a.id)).mergeSort strLe).Perm
      ((annotations.filter (matchesTime t)).map (fun a => a.id)) :=
    List.mergeSort_perm _ _
  by_cases hmt : matchesTime t a = true
  · rw [hmt]
    have hmem : a.id ∈ ((annotations.filter (matchesTime t)).map (fun a => a.id)) :=
      List.mem_map.mpr ⟨a, List.mem_filter.mpr ⟨ha, hmt⟩, rfl⟩
    simpa [List.contains] using List.elem_iff.mpr (hperm.mem_iff.mpr hmem)
  · rw [Bool.not_eq_true] at hmt
    rw [hmt, ← Bool.not_eq_true]
    intro hc
    have hmem : a.id ∈ ((annotations.filter (matchesTime t)).map (fun a => a.id)) :=
      hperm.mem_iff.mp (List.elem_iff.mp (by simpa [List.contains] using hc))
    obtain ⟨b, hb, hid⟩ := List.mem_map.mp hmem
    obtain ⟨hbmem, hbmt⟩ := List.mem_filter.mp hb
    obtain rfl : b = a := List.inj_on_of_nodup_map h.2 hbmem ha hid
    rw [hbmt] at hmt
    exact Bool.true_eq_false.mp hmt

/-- With well-formed ids, the composed resolver (no drawing mode, no
explicit selection) returns null, the single matching payload, or the
merged document, according to the multiplicity of the time-matching
drawing annotations. -/
lemma resolve_eq_match {α : Type} (annotations : List ( Annotation α)) (t : ℚ)
    (h : WellFormedIds annotations) :
    resolveActiveDrawing false Option.none annotations t =
      match annotations.filter (matchesTime t) with
      | [] => Option.none
      | [a] => a.drawingData
      | l => some ⟨"5.3.0", l.flatMap drawnObjects⟩ := by
  by_cases hM : annotations.filter (matchesTime t) = []
  · rw [hM]
    show activeDrawing annotations
      ([','].intercalate (((annotations.filter (matchesTime t)).map
        (fun a => a.id)).mergeSort strLe)) = Option.none
    rw [hM, List.map_nil, List.mergeSort_nil]
    have hi : [','].intercalate ([] : List (List Char)) = [] := rfl
    rw [hi]
    simp [activeDrawing]
  · have hres : resolveActiveDrawing false Option.none annotations t =
        activeDrawing annotations
          ([','].intercalate (((annotations.filter (matchesTime t)).map
            (fun a => a.id)).mergeSort strLe)) := rfl
    have hperm : (((annotations.filter (matchesTime t)).map
        (fun a => a.id)).mergeSort strLe).Perm
        ((annotations.filter (matchesTime t)).map (fun a => a.id)) :=
      List.mergeSort_perm _ _
    have hSne : (((annotations.filter (matchesTime t)).map
        (fun a => a.id)).mergeSort strLe) ≠ [] := by
      intro hnil
      rw [hnil] at hperm
      exact hM (List.map_eq_nil_iff.mp hperm.symm.eq_nil)
    have hSmem : ∀ s ∈ (((annotations.filter (matchesTime t)).map
        (fun a => a.id)).mergeSort strLe), s ≠ [] ∧ ',' ∉ s := by
      intro s hs
      obtain ⟨b, hb, rfl⟩ := List.mem_map.mp (hperm.mem_iff.mp hs)
      exact h.1 b (List.mem_filter.mp hb).1
    have hfree : ∀ s ∈ (((annotations.filter (matchesTime t)).map
        (fun a => a.id)).mergeSort strLe), ',' ∉ s := fun s hs => (hSmem s hs).2
    have hsplit := List.splitOn_intercalate
      (((annotations.filter (matchesTime t)).map (fun a => a.id)).mergeSort strLe)
      ',' hfree hSne
    have hsig : [','].intercalate (((annotations.filter (matchesTime t)).map
        (fun a => a.id)).mergeSort strLe) ≠ [] := by
      intro h0
      rw [h0] at hsplit
      have hS : (((annotations.filter (matchesTime t)).map
          (fun a => a.id)).mergeSort strLe) = [[]] := by
        rw [← hsplit]
        rfl
      exact (hSmem [] (by rw [hS]; exact List.mem_singleton.mpr rfl)).1 rfl
    rw [hres]
    unfold activeDrawing
    rw [if_neg hsig, hsplit, filter_contains_sorted_ids annotations t h]

/-- C5: with no explicit selection and drawing mode off, the resolver
gathers every annotation with a drawing payload whose range contains the
current time within the 0.1 s tolerance; it returns null for zero
matches, the single annotation's payload verbatim for one match, and for
several matches a synthetic document whose object list is the
concatenation of their drawn-object lists in stable (annotation-list)
order.  Ids are assumed nonempty, comma-free and pairwise distinct, as the
server produces them. -/
theorem resolver_no_selection {α : Type} (annotations : List ( Annotation α))
    (t : ℚ) (h : WellFormedIds annotations) :
    (annotations.filter (matchesTime t) = [] →
      resolveActiveDrawing false Option.none annotations t = Option.none) ∧
    (∀ a, annotations.filter (matchesTime t) = [a] →
      resolveActiveDrawing false Option.none annotations t = a.drawingData) ∧
    (2 ≤ (annotations.filter (matchesTime t)).length →
      ∃ doc, resolveActiveDrawing false Option.none annotations t = some doc ∧
        doc.objects = (annotations.filter (matchesTime t)).flatMap drawnObjects) := by
  have hre := resolve_eq_match annotations t h
  refine ⟨?_, ?_, ?_⟩
  · intro hM
    rw [hM] at hre
    exact hre
  · intro a hM
    rw [hM] at hre
    exact hre
  · intro hlen
    rcases hMl : annotations.filter (matchesTime t) with _ | ⟨a, _ | ⟨b, l⟩⟩
    · rw [hMl] at hlen; simp at hlen
    · rw [hMl] at hlen; simp at hlen
    · rw [hMl] at hre
      exact ⟨⟨"5.3.0", (a :: b :: l).flatMap drawnObjects⟩, hre, rfl⟩

/-- C5 witness: a single drawing annotation with range `[5, 8]` at
current time 6.5 is returned with its payload unmodified. -/
theorem resolver_no_selection_witness :
    WellFormedIds [(⟨['a'], "v", 5, 8, ⟨"u1", "alice"⟩, "", 0, AnnotationType.drawing,
        some ⟨"4.0.0", [1, 2]⟩⟩ : Annotation ℕ)] ∧
    List.filter (matchesTime (13/2))
        [(⟨['a'], "v", 5, 8, ⟨"u1", "alice"⟩, "", 0, AnnotationType.drawing,
          some ⟨"4.0.0", [1, 2]⟩⟩ : Annotation ℕ)] =
      [⟨['a'], "v", 5, 8, ⟨"u1", "alice"⟩, "", 0, AnnotationType.drawing,
        some ⟨"4.0.0", [1, 2]⟩⟩] ∧
    resolveActiveDrawing false Option.none
        [(⟨['a'], "v", 5, 8, ⟨"u1", "alice"⟩, "", 0, AnnotationType.drawing,
          some ⟨"4.0.0", [1, 2]⟩⟩ : Annotation ℕ)] (13/2) =
      some ⟨"4.0.0", [1, 2]⟩ := by
  have hw : WellFormedIds [(⟨['a'], "v", 5, 8, ⟨"u1", "alice"⟩, "", 0,
      AnnotationType.drawing, some ⟨"4.0.0", [1, 2]⟩⟩ : Annotation ℕ)] := by
    constructor
    · intro a ha
      rw [List.mem_singleton] at ha
      rw [ha]
      exact ⟨by simp, by decide⟩
    · simp
  have hfil : List.filter (matchesTime (13/2))
      [(⟨['a'], "v", 5, 8, ⟨"u1", "alice"⟩, "", 0, AnnotationType.drawing,
        some ⟨"4.0.0", [1, 2]⟩⟩ : Annotation ℕ)] =
      [⟨['a'], "v", 5, 8, ⟨"u1", "alice"⟩, "", 0, AnnotationType.drawing,
        some ⟨"4.0.0", [1, 2]⟩⟩] := by
    norm_num [List.filter, matchesTime, isTimeInRange, TIME_EPSILON]
  exact ⟨hw, hfil, (resolver_no_selection _ (13/2) hw).2.1 _ hfil⟩

/-- C10: whenever the resolver merges two or more visible drawing
annotations, the synthetic document it returns carries the constant
version string `"5.3.0"` (the annotations, hence the versions of their
source documents, are arbitrary); only the single-annotation path returns
the original document. -/
theorem merged_drawing_version {α : Type} (annotations : List ( Annotation α))
    (t : ℚ) (h : WellFormedIds annotations)
    (hlen : 2 ≤ (annotations.filter (matchesTime t)).length) :
    resolveActiveDrawing false Option.none annotations t =
      some ⟨"5.3.0", (annotations.filter (matchesTime t)).flatMap drawnObjects⟩ := by
  have hre := resolve_eq_match annotations t h
  rcases hMl : annotations.filter (matchesTime t) with _ | ⟨a, _ | ⟨b, l⟩⟩
  · rw [hMl] at hlen; simp at hlen
  · rw [hMl] at hlen; simp at hlen
  · rw [hMl] at hre
    rw [hre]

/-- C10 witness: two drawing annotations with versions `"4.0.0"` and
`"2.0.0"` both covering time 6.5 merge into a document with version
`"5.3.0"` and concatenated objects. -/
theorem merged_drawing_version_witness :
    WellFormedIds
      [(⟨['a'], "v", 5, 8, ⟨"u1", "alice"⟩, "", 0, AnnotationType.drawing,
          some ⟨"4.0.0", [1, 2]⟩⟩ : Annotation ℕ),
        ⟨['b'], "v", 6, 9, ⟨"u2", "bob"⟩, "", 1, AnnotationType.drawing,
          some ⟨"2.0.0", [3]⟩⟩] ∧
    2 ≤ (List.filter (matchesTime (13/2))
      [(⟨['a'], "v", 5, 8, ⟨"u1", "alice"⟩, "", 0, AnnotationType.drawing,
          some ⟨"4.0.0", [1, 2]⟩⟩ : Annotation ℕ),
        ⟨['b'], "v", 6, 9, ⟨"u2", "bob"⟩, "", 1, AnnotationType.drawing,
          some ⟨"2.0.0", [3]⟩⟩]).length ∧
    resolveActiveDrawing false Option.none
        [(⟨['a'], "v", 5, 8, ⟨"u1", "alice"⟩, "", 0, AnnotationType.drawing,
            some ⟨"4.0.0", [1, 2]⟩⟩ : Annotation ℕ),
          ⟨['b'], "v", 6, 9, ⟨"u2", "bob"⟩, "", 1, AnnotationType.drawing,
            some ⟨"2.0.0", [3]⟩⟩] (13/2) =
      some ⟨"5.3.0", [1, 2, 3]⟩ := by
  have hw : WellFormedIds
      [(⟨['a'], "v", 5, 8, ⟨"u1", "alice"⟩, "", 0, AnnotationType.drawing,
          some ⟨"4.0.0", [1, 2]⟩⟩ : Annotation ℕ),
        ⟨['b'], "v", 6, 9, ⟨"u2", "bob"⟩, "", 1, AnnotationType.drawing,
          some ⟨"2.0.0", [3]⟩⟩] := by
    constructor
    · intro a ha
      rcases List.mem_cons.mp ha with h1 | h1
      · rw [h1]; exact ⟨by simp, by decide⟩
      · rw [List.mem_singleton] at h1
        rw [h1]; exact ⟨by simp, by decide⟩
    · simp
  have hfil : List.filter (matchesTime (13/2))
      [(⟨['a'], "v", 5, 8, ⟨"u1", "alice"⟩, "", 0, AnnotationType.drawing,
          some ⟨"4.0.0", [1, 2]⟩⟩ : Annotation ℕ),
        ⟨['b'], "v", 6, 9, ⟨"u2", "bob"⟩, "", 1, AnnotationType.drawing,
          some ⟨"2.0.0", [3]⟩⟩] =
      [⟨['a'], "v", 5, 8, ⟨"u1", "alice"⟩, "", 0, AnnotationType.drawing,
          some ⟨"4.0.0", [1, 2]⟩⟩,
        ⟨['b'], "v", 6, 9, ⟨"u2", "bob"⟩, "", 1, AnnotationType.drawing,
          some ⟨"2.0.0", [3]⟩⟩] := by
    norm_num [List.filter, matchesTime, isTimeInRange, TIME_EPSILON]
  have hlen : 2 ≤ (List.filter (matchesTime (13/2))
      [(⟨['a'], "v", 5, 8, ⟨"u1", "alice"⟩, "", 0, AnnotationType.drawing,
          some ⟨"4.0.0", [1, 2]⟩⟩ : Annotation ℕ),
        ⟨['b'], "v", 6, 9, ⟨"u2", "bob"⟩, "", 1, AnnotationType.drawing,
          some ⟨"2.0.0", [3]⟩⟩]).length := by
    rw [hfil]
    simp
  have hmerge := merged_drawing_version _ (13/2) hw hlen
  rw [hfil] at hmerge
  refine ⟨hw, hlen, ?_⟩
  rw [hmerge]
  simp [drawnObjects]

/-- C6 counterexample: the annotation fetch performed when a video loads
swallows a transport failure — it returns an empty annotation list and
raises no alert, so this API failure is silent, contrary to the claim that
every API failure is surfaced as a user-visible alert. -/
theorem annotation_fetch_failure_silent :
    App.loadAnnotations (α := Unit)
        (ApiResult.err "NetworkError: failed to fetch") = ([], []) := rfl

/-- C6 amended: failures of annotation save, export, import and user
creation are each surfaced as a user-visible alert, but the annotation
fetch on video load catches the failure, returns an empty list and raises
no alert (only a console log) — that one path is silent. -/
theorem api_failure_alerts (msg : String) :
    App.handleAddCommentAlerts (α := Unit) (ApiResult.err msg) ≠ [] ∧
    App.handleExportAlerts (α := Unit) (ApiResult.err msg) ≠ [] ∧
    App.handleImportAlerts (ApiResult.err msg) ≠ [] ∧
    App.handleUserCreateAlerts (ApiResult.err msg) ≠ [] ∧
    App.loadAnnotations (α := Unit) (ApiResult.err msg) = ([], []) := by
  refine ⟨?_, ?_, ?_, ?_, rfl⟩ <;>
    simp [App.handleAddCommentAlerts, App.handleExportAlerts, App.handleImportAlerts,
      App.handleUserCreateAlerts, Api.saveAnnotation, Api.exportAnnotations,
      Api.importAnnotations, Api.createUser]

end FrameNote
